import Mathlib

/-!
Shallow embedding of the impact-dashboard SharePoint backend
(src/server.js): the formatDate helper, the milestones projection, and
the pdf-search endpoint, that is the document cache plus the snippet
search. JS strings are modelled as lists of characters. JS runtime
values that may be undefined or null are modelled as Option. External
effects (fetch, pdf-parse, the Monday API, JSON.parse) are modelled as
oracle values or small executable models standing for the outcome of
the call, as documented at each definition.
-/

set_option maxRecDepth 4000

/-- JS strings modelled as lists of characters. -/
abbrev JStr := List Char

/-- Conversion helper for writing JStr literals. -/
def js (s : String) : JStr := s.toList

/-- The JS whitespace class (used by the regex backslash-s and by trim):
space, tab, line and page breaks, and the Unicode space characters. -/
def isJsSpace (c : Char) : Bool :=
  c.val = 0x20 || (0x09 ≤ c.val && c.val ≤ 0x0d) || c.val = 0xa0 ||
  c.val = 0x1680 || (0x2000 ≤ c.val && c.val ≤ 0x200a) || c.val = 0x2028 ||
  c.val = 0x2029 || c.val = 0x202f || c.val = 0x205f || c.val = 0x3000 ||
  c.val = 0xfeff

/-- Models the JS String.trim operation. -/
def trimJs (l : JStr) : JStr :=
  ((l.dropWhile isJsSpace).reverse.dropWhile isJsSpace).reverse

/-- Models the JS toLowerCase operation, per character. -/
def lowerJs (l : JStr) : JStr := l.map Char.toLower

/-- Models the JS global regex replace of every whitespace run by one
space, as used at server.js line 167. -/
def collapseWs : JStr → JStr
  | [] => []
  | [c] => if isJsSpace c then [' '] else [c]
  | c1 :: c2 :: rest =>
    if isJsSpace c1 && isJsSpace c2 then collapseWs (c2 :: rest)
    else (if isJsSpace c1 then ' ' else c1) :: collapseWs (c2 :: rest)

/-- Whether needle occurs in hay starting at position i. -/
def matchHere (hay needle : JStr) (i : Nat) : Bool :=
  (hay.drop i).take needle.length == needle

/-- Models the JS indexOf operation on strings searching from a start
position: the least position at or after start where needle occurs in
full, none when there is none (JS returns -1 there). Faithful for a
nonempty needle, which is the only way the server calls it. -/
def firstMatchFrom (hay needle : JStr) (start : Nat) : Option Nat :=
  (List.range (hay.length + 1)).find?
    (fun i => decide (start ≤ i) && matchHere hay needle i)

/-- One snippet of the pdf-search loop (server.js lines 165 to 167): up
to 90 characters of context on each side of the occurrence at idx,
clamped to the text bounds, with whitespace runs collapsed. -/
def snippetAt (allText : JStr) (qlen idx : Nat) : JStr :=
  let start : Int := max 0 ((idx : Int) - 90)
  let stop : Int := min (allText.length : Int) ((idx : Int) + (qlen : Int) + 90)
  collapseWs ((allText.take stop.toNat).drop start.toNat)

/-- The pdf-search while loop (server.js lines 162 to 170); the fuel
argument is the room left below the cap of 8 matches. -/
def searchLoop (allText hay needle : JStr) (qlen : Nat) : Nat → Nat → List JStr
  | _, 0 => []
  | idx, Nat.succ fuel =>
    match firstMatchFrom hay needle idx with
    | none => []
    | some j =>
      snippetAt allText qlen j :: searchLoop allText hay needle qlen (j + qlen) fuel

/-- The pdf-search match computation for a trimmed query (server.js
lines 159 to 170). -/
def searchMatches (allText query : JStr) : List JStr :=
  searchLoop allText (lowerJs allText) (lowerJs query) query.length 0 8

/-- The search portion of the pdf-search handler given the document
text (server.js lines 156 to 170): trim the query, answer no matches
when the trimmed query is empty, otherwise run the match loop. -/
def searchOp (allText q : JStr) : List JStr :=
  let query := trimJs q
  if query = [] then [] else searchMatches allText query

/-- Modelled from the spec, section 4.2: the positions of the
non-overlapping left-to-right occurrences of the lowered query in the
lowered text, the cursor advancing by the query length past each
match, capped by the fuel. -/
def refPositions (hay needle : JStr) (qlen : Nat) : Nat → Nat → List Nat
  | _, 0 => []
  | idx, Nat.succ fuel =>
    match firstMatchFrom hay needle idx with
    | none => []
    | some j => j :: refPositions hay needle qlen (j + qlen) fuel

/-- Modelled from the spec, section 4.2: lower-case text and query,
take the first 8 non-overlapping occurrence positions, and emit one
clamped whitespace-collapsed snippet per occurrence, in text order. -/
def refSearch (text query : JStr) : List JStr :=
  (refPositions (lowerJs text) (lowerJs query) query.length 0 8).map
    (fun j => snippetAt text query.length j)

/-- Models the JS split on a dash character. -/
def splitDash : JStr → List JStr
  | [] => [[]]
  | c :: rest =>
    if c = '-' then [] :: splitDash rest
    else
      match splitDash rest with
      | [] => [[c]]
      | p :: ps => (c :: p) :: ps

/-- The formatDate helper (server.js lines 25 to 29). A destructured
component that does not exist is the JS undefined value, which the
template literal renders as the eight letters of the word undefined. -/
def formatDate (iso : JStr) : JStr :=
  if iso.isEmpty || !(iso.contains '-') then []
  else
    let parts := splitDash iso
    parts.getD 2 (js ("undefined")) ++
      '/' :: (parts.getD 1 (js ("undefined")) ++ '/' :: parts.getD 0 (js ("undefined")))

/-- Modelled from the spec: a well-formed YYYY-MM-DD date string, four
digits, a dash, two digits, a dash, two digits. -/
def specWellFormedYMD (s : JStr) : Bool :=
  match s with
  | [y1, y2, y3, y4, h1, m1, m2, h2, d1, d2] =>
    y1.isDigit && y2.isDigit && y3.isDigit && y4.isDigit && h1 == '-' &&
    m1.isDigit && m2.isDigit && h2 == '-' && d1.isDigit && d2.isDigit
  | _ => false

/-- Drop JSON insignificant whitespace. -/
def skipWs (l : JStr) : JStr :=
  l.dropWhile (fun c => c = ' ' || c = '\t' || c = '\n' || c = '\r')

/-- Read the body of a JSON string literal up to its closing quote;
escape sequences are outside the modelled fragment and map to none. -/
def takeStr : JStr → Option (JStr × JStr)
  | [] => none
  | '"' :: rest => some ([], rest)
  | '\\' :: _ => none
  | c :: rest =>
    match takeStr rest with
    | none => none
    | some (s, r) => some (c :: s, r)

/-- Read the members of a JSON object after its opening brace; the fuel
bounds the recursion and one length of the input is always enough. -/
def parsePairs : Nat → JStr → Option (List (JStr × JStr) × JStr)
  | 0, _ => none
  | Nat.succ fuel, l =>
    match skipWs l with
    | '"' :: r1 =>
      match takeStr r1 with
      | none => none
      | some (k, r2) =>
        match skipWs r2 with
        | ':' :: r3 =>
          match skipWs r3 with
          | '"' :: r4 =>
            match takeStr r4 with
            | none => none
            | some (v, r5) =>
              match skipWs r5 with
              | ',' :: r6 =>
                match parsePairs fuel r6 with
                | some (ps, r7) => some ((k, v) :: ps, r7)
                | none => none
              | '\x7d' :: r6 => some ([(k, v)], r6)
              | _ => none
          | _ => none
        | _ => none
    | _ => none

/-- Models the JS builtin JSON.parse as used at server.js line 101,
restricted to the fragment that can contribute a timeline: a flat
object whose values are escape-free strings. Every input outside the
fragment maps to none, which the embedding treats exactly like a
thrown parse; the surrounding try block turns every such abnormal
case, for the real builtin as for this model, into the empty
timeline. -/
def jsonParseFlat (l : JStr) : Option (List (JStr × JStr)) :=
  match skipWs l with
  | '\x7b' :: r =>
    match skipWs r with
    | '\x7d' :: r2 => if skipWs r2 = [] then some [] else none
    | _ =>
      match parsePairs l.length r with
      | some (ps, rest) => if skipWs rest = [] then some ps else none
      | none => none
  | _ => none

/-- JS object field lookup on the parsed members; a repeated key keeps
the last value, as in JS. -/
def jsonLookup (key : JStr) (ps : List (JStr × JStr)) : Option JStr :=
  ps.foldl (fun acc kv => if kv.1 = key then some kv.2 else acc) none

/-- The parsed timeline range value: the optional from and to fields
of the parsed object. -/
structure TimelineVal where
  fromVal : Option JStr
  toVal : Option JStr
deriving DecidableEq

/-- The timeline range read by JSON.parse at server.js line 101: the
object fields named from and to, when the raw value parses. -/
def parseTimeline (v : JStr) : Option TimelineVal :=
  match jsonParseFlat v with
  | none => none
  | some ps => some ⟨jsonLookup (js ("from")) ps, jsonLookup (js ("to")) ps⟩

/-- formatDate applied to a possibly missing field: JS formatDate of
undefined takes the falsy guard and yields the empty string. -/
def formatDateOpt : Option JStr → JStr
  | none => []
  | some s => formatDate s

/-- The timeline computation of the subitem projection (server.js
lines 98 to 106): empty unless the raw column value is present, truthy
and parses and both bounds format to nonempty strings; then the two
formatted bounds joined by a spaced en dash. -/
def timelineField (value : Option JStr) : JStr :=
  match value with
  | none => []
  | some v =>
    if v.isEmpty then []
    else
      match parseTimeline v with
      | none => []
      | some tv =>
        let f := formatDateOpt tv.fromVal
        let t := formatDateOpt tv.toVal
        if !f.isEmpty && !t.isEmpty then f ++ ' ' :: '–' :: (' ' :: t) else []

/-- One Monday column value: its id, display text and raw value; text
and value are null or absent in some records. -/
structure ColumnValue where
  id : JStr
  text : Option JStr
  value : Option JStr
deriving DecidableEq

/-- One Monday subitem as queried by the milestones endpoint. -/
structure Subitem where
  name : JStr
  column_values : List ColumnValue
deriving DecidableEq

/-- One Monday item as queried by the milestones endpoint; subitems is
null or absent in some records, which the code defaults to the empty
list. -/
structure Item where
  name : JStr
  column_values : List ColumnValue
  subitems : Option (List Subitem)
deriving DecidableEq

/-- The projected subitem of the milestones response. -/
structure SubOut where
  name : JStr
  sponsor : JStr
  lead : JStr
  timeline : JStr
  status : JStr
deriving DecidableEq

/-- The projected item of the milestones response. -/
structure ItemOut where
  name : JStr
  description : JStr
  date : JStr
  portfolio : JStr
  subitems : List SubOut
deriving DecidableEq

/-- The column lookup used throughout the projection, the JS find on
column_values by id. -/
def findCol (cols : List ColumnValue) (colId : JStr) : Option ColumnValue :=
  cols.find? (fun c => c.id == colId)

/-- The JS optional chain reading text from a possibly missing column,
followed by the or-empty default. -/
def optText (c : Option ColumnValue) : JStr :=
  match c with
  | none => []
  | some col => col.text.getD []

/-- The JS optional chain reading the raw value from a possibly missing
column; undefined and null both land in none. -/
def optValue (c : Option ColumnValue) : Option JStr :=
  c.bind ColumnValue.value

/-- The subitem projection (server.js lines 92 to 115). -/
def projectSub (sub : Subitem) : SubOut :=
  let sponsorCol := findCol sub.column_values (js ("person"))
  let leadCol := findCol sub.column_values (js ("multiple_person_mkr3784v"))
  let timelineCol := findCol sub.column_values (js ("timerange_mkpca05e"))
  let statusCol := findCol sub.column_values (js ("status"))
  { name := sub.name
    sponsor := optText sponsorCol
    lead := optText leadCol
    timeline := timelineField (optValue timelineCol)
    status := optText statusCol }

/-- The item projection (server.js lines 87 to 124). -/
def projectItem (item : Item) : ItemOut :=
  let descriptionCol := findCol item.column_values (js ("long_text_mkp52kd7"))
  let dateCol := findCol item.column_values (js ("date4"))
  let portfolioCol := findCol item.column_values (js ("dropdown_mkp5e1h0"))
  { name := item.name
    description := optText descriptionCol
    date := formatDate (optText dateCol)
    portfolio := optText portfolioCol
    subitems := (item.subitems.getD []).map projectSub }

/-- The environment configuration read at startup; an unset variable is
none, and none and the empty string are both falsy. -/
structure Config where
  MONDAY_API_KEY : Option JStr
  MAIN_BOARD_ID : Option JStr
deriving DecidableEq

/-- JS falsiness of a possibly undefined string. -/
def jsFalsyOpt : Option JStr → Bool
  | none => true
  | some s => s.isEmpty

/-- Oracle for the awaited Monday call of fetchFromMonday: the
transport may reject, the response may be non-success or carry an
error list, and both throw, or the parsed payload arrives, whose
optional chain down to the item list may give undefined. -/
inductive MondayOutcome where
  | transportThrow
  | badResponse
  | ok (items : Option (List Item))
deriving DecidableEq

/-- fetchFromMonday (server.js lines 31 to 51) combined with the
optional chain of line 85: throws when a required environment variable
is falsy, when the transport rejects, or when the response is
non-success or carries errors; otherwise the item list reached by the
optional chain. -/
def fetchFromMonday (cfg : Config) (o : MondayOutcome) : Except Unit (Option (List Item)) :=
  if jsFalsyOpt cfg.MONDAY_API_KEY || jsFalsyOpt cfg.MAIN_BOARD_ID then Except.error ()
  else
    match o with
    | MondayOutcome.transportThrow => Except.error ()
    | MondayOutcome.badResponse => Except.error ()
    | MondayOutcome.ok items => Except.ok items

/-- The milestones endpoint response: the HTTP status, the success flag
of the JSON body, and the item list when present. -/
structure MilestonesResp where
  status : Nat
  success : Bool
  items : Option (List ItemOut)
deriving DecidableEq

/-- The milestones handler (server.js lines 63 to 131): on any thrown
error respond 500 with success false, otherwise default the missing
chain to the empty list, project every item and respond 200 with
success true. -/
def milestonesHandler (cfg : Config) (o : MondayOutcome) : MilestonesResp :=
  match fetchFromMonday cfg o with
  | Except.error _ => ⟨500, false, none⟩
  | Except.ok payload => ⟨200, true, some ((payload.getD []).map projectItem)⟩

/-- One document cache entry (server.js line 134): the fetch timestamp
in milliseconds and the extracted text. -/
structure CacheEntry where
  fetchedAt : Int
  text : JStr
deriving DecidableEq

/-- The cache map from url to entry (server.js line 134). -/
abbrev Cache := JStr → Option CacheEntry

/-- The cache TTL of one hour in milliseconds (server.js line 135). -/
def PDF_CACHE_MS : Int := 60 * 60 * 1000

/-- Oracle for the awaited fetch and pdf-parse of one request: the
transport may reject, the response may be non-success, extraction may
reject, or extraction resolves with an optional text field. -/
inductive FetchExtract where
  | fetchThrow
  | fetchNotOk
  | parseThrow
  | parsed (text : Option JStr)
deriving DecidableEq

/-- The failure modes of the getText path: the explicit 502 of a
non-success fetch, or a rejection caught by the handler catch, which
answers 500. -/
inductive PdfErr where
  | fetchFailed
  | thrown
deriving DecidableEq

/-- Result of the getText path of one request: the text or the
failure, the cache map afterwards, and how many fetches ran. -/
structure GetTextOut where
  result : Except PdfErr JStr
  cache : Cache
  fetches : Nat

/-- The or-empty default applied to a value that is already a string:
empty stays empty and anything else stays itself. -/
def jsOrEmptyStr (s : JStr) : JStr := if s.isEmpty then [] else s

/-- The refetch branch of the pdf-search handler (server.js lines 147
to 152): fetch, fail fast with 502 on a non-success response, parse,
install the entry under the url with the current time and the
extracted text defaulted to empty, and hand the entry text on. -/
def doFetch (cache : Cache) (now : Int) (o : FetchExtract) (url : JStr) : GetTextOut :=
  match o with
  | FetchExtract.fetchThrow => ⟨Except.error PdfErr.thrown, cache, 1⟩
  | FetchExtract.fetchNotOk => ⟨Except.error PdfErr.fetchFailed, cache, 1⟩
  | FetchExtract.parseThrow => ⟨Except.error PdfErr.thrown, cache, 1⟩
  | FetchExtract.parsed t =>
    let entry : CacheEntry := ⟨now, t.getD []⟩
    ⟨Except.ok (jsOrEmptyStr entry.text),
      fun k => if k = url then some entry else cache k, 1⟩

/-- The getText path of the pdf-search handler (server.js lines 142 to
155): use the cached entry when present and no older than the TTL,
otherwise refetch; the text handed to the search is the entry text
with the or-empty default of line 155. -/
def getTextStep (cache : Cache) (now : Int) (o : FetchExtract) (url : JStr) : GetTextOut :=
  match cache url with
  | none => doFetch cache now o url
  | some e =>
    if now - e.fetchedAt > PDF_CACHE_MS then doFetch cache now o url
    else ⟨Except.ok (jsOrEmptyStr e.text), cache, 0⟩

/-- The pdf-search endpoint response: 400 on a missing or empty
parameter, 502 on a failed fetch, 500 on a caught rejection, or the
match list with success true. -/
inductive PdfResp where
  | badRequest
  | fetchError
  | serverError
  | ok (found : List JStr)
deriving DecidableEq

/-- The pdf-search handler (server.js lines 137 to 177): validate the
parameters, run the getText path, then trim the query and search the
text. -/
def pdfSearchHandler (cache : Cache) (now : Int) (o : FetchExtract)
    (url q : Option JStr) : PdfResp × Cache :=
  match url, q with
  | some u, some qs =>
    if u.isEmpty || qs.isEmpty then (PdfResp.badRequest, cache)
    else
      let out := getTextStep cache now o u
      match out.result with
      | Except.error PdfErr.fetchFailed => (PdfResp.fetchError, out.cache)
      | Except.error PdfErr.thrown => (PdfResp.serverError, out.cache)
      | Except.ok allText => (PdfResp.ok (searchOp allText qs), out.cache)
  | _, _ => (PdfResp.badRequest, cache)

lemma no_dash_of_digits (l : JStr) (h : l.all Char.isDigit = true) : '-' ∉ l := by
  intro hm
  have h2 := List.all_eq_true.mp h '-' hm
  exact absurd h2 (by decide)

lemma splitDash_no_dash (a : JStr) (h : '-' ∉ a) : splitDash a = [a] := by
  induction a with
  | nil => rfl
  | cons c rest ih =>
    simp only [List.mem_cons, not_or] at h
    have hc : ¬ c = '-' := fun e => h.1 e.symm
    simp [splitDash, hc, ih h.2]

lemma splitDash_append (a rest : JStr) (h : '-' ∉ a) :
    splitDash (a ++ '-' :: rest) = a :: splitDash rest := by
  induction a with
  | nil => simp [splitDash]
  | cons c t ih =>
    simp only [List.mem_cons, not_or] at h
    have hc : ¬ c = '-' := fun e => h.1 e.symm
    simp [splitDash, hc, ih h.2]

/-- C7: formatDate turns every well-formed YYYY-MM-DD string, given as
its all-digit four-letter year, two-letter month and two-letter day,
into the corresponding DD/MM/YYYY string, and it yields the empty
string on the empty input and on any input containing no dash. -/
theorem c7_formatDate_wellFormed :
    (∀ y m d : JStr, y.all Char.isDigit = true → m.all Char.isDigit = true →
      d.all Char.isDigit = true → y.length = 4 → m.length = 2 → d.length = 2 →
      formatDate (y ++ '-' :: (m ++ '-' :: d)) = d ++ '/' :: (m ++ '/' :: y))
    ∧ formatDate [] = []
    ∧ (∀ s : JStr, s.contains '-' = false → formatDate s = []) := by
  refine ⟨?_, rfl, ?_⟩
  · intro y m d hy hm hd hy4 _ _
    have hyd := no_dash_of_digits y hy
    have hmd := no_dash_of_digits m hm
    have hdd := no_dash_of_digits d hd
    have hsplit : splitDash (y ++ '-' :: (m ++ '-' :: d)) = [y, m, d] := by
      rw [splitDash_append _ _ hyd, splitDash_append _ _ hmd, splitDash_no_dash _ hdd]
    have hmem : '-' ∈ y ++ '-' :: (m ++ '-' :: d) := by simp
    have hne : (y ++ '-' :: (m ++ '-' :: d)).isEmpty = false := by
      cases hcon : y ++ '-' :: (m ++ '-' :: d) with
      | nil => exact absurd (hcon ▸ hmem) (List.not_mem_nil '-')
      | cons a l => rfl
    simp [formatDate, hne, hsplit, hmem, List.getD]
  · intro s h
    have hm : '-' ∉ s := by simpa [List.contains] using h
    simp [formatDate, h]
    exact fun _ => hm

/-- C7 witness at the concrete date named by the spec. -/
theorem c7_formatDate_wellFormed_witness :
    formatDate (js ("2024-03-07")) = js ("07/03/2024") := by
  have h := c7_formatDate_wellFormed.1 (js ("2024")) (js ("03")) (js ("07"))
    (by decide) (by decide) (by decide) (by decide) (by decide) (by decide)
  have e1 : js ("2024-03-07") = js ("2024") ++ '-' :: (js ("03") ++ '-' :: js ("07")) := by
    decide
  have e2 : js ("07/03/2024") = js ("07") ++ '/' :: (js ("03") ++ '/' :: js ("2024")) := by
    decide
  rw [e1, e2]; exact h

/-- C6 counterexample: the non-empty malformed input of three letters
separated by dashes is not a well-formed date, yet formatDate yields
the non-empty rearranged letters, not the empty string the claim
demands for every malformed input. -/
theorem c6_formatDate_malformed_counterexample :
    formatDate (js ("x-y-z")) = js ("z/y/x") ∧
    specWellFormedYMD (js ("x-y-z")) = false ∧
    formatDate (js ("x-y-z")) ≠ [] :=
  ⟨by decide, by decide, by decide⟩

/-- C6 amended: formatDate is total, so it never raises, and it maps
the empty input and every input containing no dash to the empty
string; an input containing a dash is split and reassembled without
any validation, so a malformed input holding a dash can produce
non-empty output. -/
theorem c6_formatDate_empty_cases :
    formatDate [] = [] ∧
    (∀ s : JStr, s.contains '-' = false → formatDate s = []) := by
  refine ⟨rfl, ?_⟩
  intro s h
  have hm : '-' ∉ s := by simpa [List.contains] using h
  simp [formatDate, h]
  exact fun _ => hm

/-- C6 amended witness on a concrete dash-free input. -/
theorem c6_formatDate_empty_cases_witness :
    formatDate (js ("nodash")) = [] :=
  c6_formatDate_empty_cases.2 (js ("nodash")) (by decide)

/-- C8 counterexample: with the credential absent the milestones
handler answers HTTP status 500, a 5xx, against the claim that a
missing-configuration failure never gets a 5xx status; the body does
carry success false. -/
theorem c8_config_error_counterexample :
    (milestonesHandler ⟨none, some (js ("12345"))⟩ (MondayOutcome.ok none)).status = 500 ∧
    (milestonesHandler ⟨none, some (js ("12345"))⟩ (MondayOutcome.ok none)).status / 100 = 5 ∧
    (milestonesHandler ⟨none, some (js ("12345"))⟩ (MondayOutcome.ok none)).success = false :=
  ⟨rfl, rfl, rfl⟩

/-- C8 amended: a missing required credential or board identifier is
surfaced by the milestones handler as the JSON body with success
false, but with HTTP status 500, the same 5xx used for every caught
failure, not a success status. -/
theorem c8_config_error_amended (cfg : Config) (o : MondayOutcome)
    (h : (jsFalsyOpt cfg.MONDAY_API_KEY || jsFalsyOpt cfg.MAIN_BOARD_ID) = true) :
    milestonesHandler cfg o = ⟨500, false, none⟩ := by
  simp [milestonesHandler, fetchFromMonday, h]

/-- C8 amended witness with both variables absent. -/
theorem c8_config_error_amended_witness :
    milestonesHandler ⟨none, none⟩ MondayOutcome.transportThrow = ⟨500, false, none⟩ :=
  c8_config_error_amended ⟨none, none⟩ MondayOutcome.transportThrow (by decide)

/-- C9: a column absent from the column_values of an item or subitem
projects to the empty string for the corresponding output field, for
each of the seven looked-up columns, and the total projection never
throws on the absence. -/
theorem c9_absent_column_empty (item : Item) (sub : Subitem) :
    (findCol item.column_values (js ("long_text_mkp52kd7")) = none →
      (projectItem item).description = [])
    ∧ (findCol item.column_values (js ("date4")) = none → (projectItem item).date = [])
    ∧ (findCol item.column_values (js ("dropdown_mkp5e1h0")) = none →
      (projectItem item).portfolio = [])
    ∧ (findCol sub.column_values (js ("person")) = none → (projectSub sub).sponsor = [])
    ∧ (findCol sub.column_values (js ("multiple_person_mkr3784v")) = none →
      (projectSub sub).lead = [])
    ∧ (findCol sub.column_values (js ("timerange_mkpca05e")) = none →
      (projectSub sub).timeline = [])
    ∧ (findCol sub.column_values (js ("status")) = none → (projectSub sub).status = []) := by
  refine ⟨?_, ?_, ?_, ?_, ?_, ?_, ?_⟩ <;> intro h <;>
    simp [projectItem, projectSub, h, optText, optValue, formatDate, timelineField]

/-- C9 witness: an item and a subitem with no columns at all project
to empty strings in every looked-up field. -/
theorem c9_absent_column_empty_witness :
    (projectItem ⟨js ("it"), [], none⟩).description = [] ∧
    (projectItem ⟨js ("it"), [], none⟩).date = [] ∧
    (projectItem ⟨js ("it"), [], none⟩).portfolio = [] ∧
    (projectSub ⟨js ("s"), []⟩).sponsor = [] ∧
    (projectSub ⟨js ("s"), []⟩).lead = [] ∧
    (projectSub ⟨js ("s"), []⟩).timeline = [] ∧
    (projectSub ⟨js ("s"), []⟩).status = [] := by
  have h := c9_absent_column_empty ⟨js ("it"), [], none⟩ ⟨js ("s"), []⟩
  exact ⟨h.1 rfl, h.2.1 rfl, h.2.2.1 rfl, h.2.2.2.1 rfl, h.2.2.2.2.1 rfl,
    h.2.2.2.2.2.1 rfl, h.2.2.2.2.2.2 rfl⟩

/-- C5 counterexample: a raw timeline value that JSON-parses and whose
from bound is the malformed date a-b; the projected timeline is not
empty and carries a garbage bound, the word undefined over the two
rearranged letters, against the claim that an unformattable bound
forces the empty timeline and that no garbage bound ever appears. -/
theorem c5_timeline_garbage_counterexample :
    timelineField (some (js ("\x7b\"from\":\"a-b\",\"to\":\"2024-01-02\"\x7d"))) =
      js ("undefined/b/a – 02/01/2024") ∧
    specWellFormedYMD (js ("a-b")) = false ∧
    timelineField (some (js ("\x7b\"from\":\"a-b\",\"to\":\"2024-01-02\"\x7d"))) ≠ [] :=
  ⟨by decide, by decide, by decide⟩

/-- C5 amended: the timeline is all-or-nothing in bound presence:
either it is the empty string, which covers a missing or falsy raw
value, a failed parse, and every case where a formatted bound comes
out empty, or the raw value parsed and the timeline is exactly the two
nonempty formatted bounds joined by a spaced en dash; a partial
timeline with a single bound never occurs. But formatDate validates
nothing beyond the presence of a dash, so a malformed bound holding a
dash appears rearranged inside the joined timeline rather than
emptying it. -/
theorem c5_timeline_all_or_nothing (value : Option JStr) :
    timelineField value = [] ∨
    ∃ v tv, value = some v ∧ parseTimeline v = some tv ∧
      formatDateOpt tv.fromVal ≠ [] ∧ formatDateOpt tv.toVal ≠ [] ∧
      timelineField value =
        formatDateOpt tv.fromVal ++ ' ' :: '–' :: (' ' :: formatDateOpt tv.toVal) := by
  match value with
  | none => exact Or.inl rfl
  | some v =>
    by_cases hv : v.isEmpty
    · left; simp [timelineField, hv]
    · match hp : parseTimeline v with
      | none => left; simp [timelineField, hv, hp]
      | some tv =>
        cases hf : (formatDateOpt tv.fromVal).isEmpty with
        | true =>
          left
          simp [timelineField, hv, hp, hf]
        | false =>
          cases ht : (formatDateOpt tv.toVal).isEmpty with
          | true =>
            left
            simp [timelineField, hv, hp, hf, ht]
          | false =>
            right
            refine ⟨v, tv, rfl, hp, ?_, ?_, ?_⟩
            · intro e; rw [e] at hf; simp at hf
            · intro e; rw [e] at ht; simp at ht
            · simp [timelineField, hv, hp, hf, ht]

lemma jsOrEmptyStr_eq (s : JStr) : jsOrEmptyStr s = s := by
  cases s <;> simp [jsOrEmptyStr]

/-- C1: when the getText path of the pdf-search handler must refetch,
that is the url is uncached or its entry is strictly older than the
TTL, and the fetch or the extraction fails, the caller gets an error,
the 502 answer or the caught 500, and the cache map is left exactly as
it was, so any existing stale entry stays present and unmodified. -/
theorem c1_failed_refresh_keeps_cache (cache : Cache) (now : Int) (o : FetchExtract)
    (url : JStr)
    (hmiss : cache url = none ∨ ∃ e, cache url = some e ∧ now - e.fetchedAt > PDF_CACHE_MS)
    (hfail : o = FetchExtract.fetchThrow ∨ o = FetchExtract.fetchNotOk ∨
      o = FetchExtract.parseThrow) :
    (∃ err, (getTextStep cache now o url).result = Except.error err) ∧
    (getTextStep cache now o url).cache = cache := by
  have hdo : getTextStep cache now o url = doFetch cache now o url := by
    rcases hmiss with h | ⟨e, he, hst⟩
    · simp [getTextStep, h]
    · simp [getTextStep, he, hst]
  rw [hdo]
  rcases hfail with h | h | h <;> subst h <;> exact ⟨⟨_, rfl⟩, rfl⟩

/-- C1 witness: a stale entry, a non-success fetch, the cache map
unchanged with the stale entry still in place. -/
theorem c1_failed_refresh_keeps_cache_witness :
    (∃ err, (getTextStep (fun k => if k = js ("u") then some ⟨0, js ("old")⟩ else none)
      (PDF_CACHE_MS + 1) FetchExtract.fetchNotOk (js ("u"))).result = Except.error err) ∧
    (getTextStep (fun k => if k = js ("u") then some ⟨0, js ("old")⟩ else none)
      (PDF_CACHE_MS + 1) FetchExtract.fetchNotOk (js ("u"))).cache =
      (fun k => if k = js ("u") then some ⟨0, js ("old")⟩ else none) :=
  c1_failed_refresh_keeps_cache _ _ _ _
    (Or.inr ⟨⟨0, js ("old")⟩, by decide, by decide⟩)
    (Or.inr (Or.inl rfl))

/-- C2: the getText path fetches exactly when the url is uncached or
its entry is strictly older than the one-hour TTL; a first call on an
uncached url whose fetch and extraction succeed installs the entry
with the current time and the extracted text and returns that text;
and a call that finds an entry no older than the TTL fetches zero
times, returns the identical cached text, and leaves the map
unchanged. -/
theorem c2_cache_ttl_policy (cache : Cache) (now : Int) (o : FetchExtract) (url : JStr) :
    ((getTextStep cache now o url).fetches = 1 ↔
      (cache url = none ∨ ∃ e, cache url = some e ∧ now - e.fetchedAt > PDF_CACHE_MS))
    ∧ (∀ t, cache url = none → o = FetchExtract.parsed t →
        (getTextStep cache now o url).cache url = some ⟨now, t.getD []⟩ ∧
        (getTextStep cache now o url).result = Except.ok (t.getD []) ∧
        (getTextStep cache now o url).fetches = 1)
    ∧ (∀ e, cache url = some e → ¬ (now - e.fetchedAt > PDF_CACHE_MS) →
        (getTextStep cache now o url).fetches = 0 ∧
        (getTextStep cache now o url).result = Except.ok e.text ∧
        (getTextStep cache now o url).cache = cache) := by
  have hfetch1 : ∀ oo : FetchExtract, (doFetch cache now oo url).fetches = 1 := by
    intro oo; cases oo <;> rfl
  refine ⟨⟨?_, ?_⟩, ?_, ?_⟩
  · intro h1
    match hc : cache url with
    | none => exact Or.inl rfl
    | some e =>
      by_cases hst : now - e.fetchedAt > PDF_CACHE_MS
      · exact Or.inr ⟨e, rfl, hst⟩
      · exfalso
        simp [getTextStep, hc, hst] at h1
  · intro h
    rcases h with hc | ⟨e, hc, hst⟩
    · simp [getTextStep, hc, hfetch1]
    · simp [getTextStep, hc, hst, hfetch1]
  · intro t hc ho
    subst ho
    simp [getTextStep, hc, doFetch, jsOrEmptyStr_eq]
  · intro e hc hst
    simp [getTextStep, hc, hst, jsOrEmptyStr_eq]

/-- C2 witness: a first call on an empty cache with a successful fetch
and extraction installs the entry and returns its text. -/
theorem c2_cache_ttl_policy_witness :
    (getTextStep (fun _ => none) 5 (FetchExtract.parsed (some (js ("hello"))))
      (js ("u"))).cache (js ("u")) = some ⟨5, js ("hello")⟩ ∧
    (getTextStep (fun _ => none) 5 (FetchExtract.parsed (some (js ("hello"))))
      (js ("u"))).result = Except.ok (js ("hello")) ∧
    (getTextStep (fun _ => none) 5 (FetchExtract.parsed (some (js ("hello"))))
      (js ("u"))).fetches = 1 :=
  (c2_cache_ttl_policy (fun _ => none) 5 (FetchExtract.parsed (some (js ("hello"))))
    (js ("u"))).2.1 (some (js ("hello"))) rfl rfl

lemma getTextStep_cache_cases (cache : Cache) (now : Int) (o : FetchExtract) (url : JStr) :
    (getTextStep cache now o url).cache = cache ∨
    ∃ e, (getTextStep cache now o url).cache = fun k => if k = url then some e else cache k := by
  have hdo : ∀ oo : FetchExtract, (doFetch cache now oo url).cache = cache ∨
      ∃ e, (doFetch cache now oo url).cache = fun k => if k = url then some e else cache k := by
    intro oo
    cases oo with
    | parsed t => exact Or.inr ⟨⟨now, t.getD []⟩, rfl⟩
    | fetchThrow => exact Or.inl rfl
    | fetchNotOk => exact Or.inl rfl
    | parseThrow => exact Or.inl rfl
  match hc : cache url with
  | none =>
    have h : getTextStep cache now o url = doFetch cache now o url := by
      simp [getTextStep, hc]
    rw [h]; exact hdo o
  | some e =>
    by_cases hst : now - e.fetchedAt > PDF_CACHE_MS
    · have h : getTextStep cache now o url = doFetch cache now o url := by
        simp [getTextStep, hc, hst]
      rw [h]; exact hdo o
    · have h : (getTextStep cache now o url).cache = cache := by
        simp [getTextStep, hc, hst]
      exact Or.inl h

/-- C10: a pdf-search request touches at most the cache entry of its
url parameter: every other key maps to the same entry afterwards, and
a key present before the request is still present after it, so the
set of cached urls never shrinks. -/
theorem c10_frame (cache : Cache) (now : Int) (o : FetchExtract) (url q : Option JStr) :
    (∀ k : JStr, url ≠ some k → (pdfSearchHandler cache now o url q).2 k = cache k)
    ∧ (∀ k : JStr, cache k ≠ none → (pdfSearchHandler cache now o url q).2 k ≠ none) := by
  match url, q with
  | none, _ => exact ⟨fun k _ => rfl, fun k h => h⟩
  | some u, none => exact ⟨fun k _ => rfl, fun k h => h⟩
  | some u, some qs =>
    have hcache2 : (pdfSearchHandler cache now o (some u) (some qs)).2 = cache ∨
        (pdfSearchHandler cache now o (some u) (some qs)).2 =
          (getTextStep cache now o u).cache := by
      by_cases hval : (u.isEmpty || qs.isEmpty) = true
      · left; simp [pdfSearchHandler, hval]
      · right
        simp only [pdfSearchHandler, Bool.not_eq_true] at hval ⊢
        rw [hval]
        simp only [Bool.false_eq_true, if_false]
        rcases hres : (getTextStep cache now o u).result with err | txt
        · cases err <;> simp [hres]
        · simp [hres]
    constructor
    · intro k hk
      have hku : k ≠ u := fun e => hk (by rw [e])
      rcases hcache2 with h2 | h2
      · rw [h2]
      · rw [h2]
        rcases getTextStep_cache_cases cache now o u with h3 | ⟨e, h3⟩
        · rw [h3]
        · rw [h3]; simp [hku]
    · intro k hk
      rcases hcache2 with h2 | h2
      · rw [h2]; exact hk
      · rw [h2]
        rcases getTextStep_cache_cases cache now o u with h3 | ⟨e, h3⟩
        · rw [h3]; exact hk
        · rw [h3]
          by_cases hke : k = u
          · simp [hke]
          · simp only [hke, if_false]; exact hk

/-- C10 witness: a request for one url leaves another key unchanged
and keeps that cached key present. -/
theorem c10_frame_witness :
    (pdfSearchHandler (fun _ => some ⟨0, js ("t")⟩) 0 FetchExtract.fetchThrow
      (some (js ("a"))) (some (js ("q")))).2 (js ("b")) =
      (fun (_ : JStr) => some (⟨0, js ("t")⟩ : CacheEntry)) (js ("b")) ∧
    (pdfSearchHandler (fun _ => some ⟨0, js ("t")⟩) 0 FetchExtract.fetchThrow
      (some (js ("a"))) (some (js ("q")))).2 (js ("b")) ≠ none := by
  have h := c10_frame (fun _ => some ⟨0, js ("t")⟩) 0 FetchExtract.fetchThrow
    (some (js ("a"))) (some (js ("q")))
  exact ⟨h.1 (js ("b")) (by decide), h.2 (js ("b")) (by decide)⟩

lemma searchLoop_eq_map (allText hay needle : JStr) (qlen : Nat) :
    ∀ fuel idx, searchLoop allText hay needle qlen idx fuel =
      (refPositions hay needle qlen idx fuel).map (fun j => snippetAt allText qlen j) := by
  intro fuel
  induction fuel with
  | zero => intro idx; rfl
  | succ n ih =>
    intro idx
    cases hfm : firstMatchFrom hay needle idx with
    | none => simp [searchLoop, refPositions, hfm]
    | some j => simp [searchLoop, refPositions, hfm, ih]

lemma searchLoop_length_le (allText hay needle : JStr) (qlen : Nat) :
    ∀ fuel idx, (searchLoop allText hay needle qlen idx fuel).length ≤ fuel := by
  intro fuel
  induction fuel with
  | zero => intro idx; simp [searchLoop]
  | succ n ih =>
    intro idx
    cases hfm : firstMatchFrom hay needle idx with
    | none => simp [searchLoop, hfm]
    | some j =>
      simp only [searchLoop, hfm, List.length_cons]
      exact Nat.succ_le_succ (ih (j + qlen))

lemma firstMatchFrom_ge (hay needle : JStr) (s j : Nat)
    (h : firstMatchFrom hay needle s = some j) : s ≤ j := by
  have h2 := List.find?_some h
  simp only [Bool.and_eq_true, decide_eq_true_eq] at h2
  exact h2.1

lemma refPositions_ge (hay needle : JStr) (qlen : Nat) :
    ∀ fuel idx j, j ∈ refPositions hay needle qlen idx fuel → idx ≤ j := by
  intro fuel
  induction fuel with
  | zero => intro idx j h; simp [refPositions] at h
  | succ n ih =>
    intro idx j h
    cases hfm : firstMatchFrom hay needle idx with
    | none => rw [refPositions, hfm] at h; simp at h
    | some j0 =>
      rw [refPositions, hfm] at h
      rcases List.mem_cons.mp h with rfl | hrest
      · exact firstMatchFrom_ge hay needle idx j hfm
      · have h1 := ih (j0 + qlen) j hrest
        have h2 := firstMatchFrom_ge hay needle idx j0 hfm
        omega

lemma refPositions_chain (hay needle : JStr) (qlen : Nat) (hq : 1 ≤ qlen) :
    ∀ fuel idx, List.Chain' (· < ·) (refPositions hay needle qlen idx fuel) := by
  intro fuel
  induction fuel with
  | zero => intro idx; simp [refPositions]
  | succ n ih =>
    intro idx
    cases hfm : firstMatchFrom hay needle idx with
    | none => simp [refPositions, hfm]
    | some j =>
      rw [refPositions, hfm]
      rw [List.chain'_cons']
      refine ⟨?_, ih (j + qlen)⟩
      intro y hy
      have hcons := List.eq_cons_of_mem_head? hy
      have hmem : y ∈ refPositions hay needle qlen (j + qlen) n := by
        rw [hcons]; exact List.mem_cons_self y _
      have := refPositions_ge hay needle qlen n (j + qlen) y hmem
      omega

/-- C3: for every text and every query that is nonempty after
trimming, the pdf-search match loop equals the spec reference
algorithm, the snippet former mapped over the capped list of
non-overlapping occurrence positions of the lowered query in the
lowered text; at most 8 matches are returned even when more
occurrences exist; and the occurrence positions are strictly
increasing, so matches follow the position order in the text. -/
theorem c3_search_matches_reference (text query : JStr) (h : trimJs query ≠ []) :
    searchMatches text query = refSearch text query ∧
    (searchMatches text query).length ≤ 8 ∧
    List.Chain' (· < ·) (refPositions (lowerJs text) (lowerJs query) query.length 0 8) := by
  have hq : query ≠ [] := by
    intro e; subst e; exact h rfl
  have hq1 : 1 ≤ query.length := by
    cases query with
    | nil => exact absurd rfl hq
    | cons a l => simp
  exact ⟨searchLoop_eq_map text (lowerJs text) (lowerJs query) query.length 8 0,
    searchLoop_length_le text (lowerJs text) (lowerJs query) query.length 8 0,
    refPositions_chain (lowerJs text) (lowerJs query) query.length hq1 8 0⟩

/-- C3 witness: twenty letters a searched for the letter a match the
reference algorithm and produce exactly 8 matches, the cap, though 20
occurrences exist. -/
theorem c3_search_matches_reference_witness :
    (searchMatches (List.replicate 20 'a') ['a'] = refSearch (List.replicate 20 'a') ['a'] ∧
      (searchMatches (List.replicate 20 'a') ['a']).length ≤ 8 ∧
      List.Chain' (· < ·)
        (refPositions (lowerJs (List.replicate 20 'a')) (lowerJs ['a']) 1 0 8)) ∧
    (searchMatches (List.replicate 20 'a') ['a']).length = 8 :=
  ⟨c3_search_matches_reference (List.replicate 20 'a') ['a'] (by decide), by decide⟩

lemma firstMatchFrom_none_of_long (hay needle : JStr) (s : Nat)
    (h : hay.length < needle.length) : firstMatchFrom hay needle s = none := by
  rw [firstMatchFrom]
  apply List.find?_eq_none.mpr
  intro i _
  intro hp
  rw [Bool.and_eq_true] at hp
  have hm := hp.2
  rw [matchHere, beq_iff_eq] at hm
  have hlen : ((hay.drop i).take needle.length).length = needle.length := by rw [hm]
  simp only [List.length_take, List.length_drop] at hlen
  omega

/-- C4: the search given a document text is total and succeeds with no
matches in each degenerate case: a query empty after trimming, a
trimmed query with no occurrence in the lowered text, and a trimmed
query longer than the text all give the empty match list; and on a
request whose url is freshly cached and whose query trims to empty the
handler answers the success response with the empty match list, not an
error. -/
theorem c4_degenerate_queries_empty (text q : JStr) :
    (trimJs q = [] → searchOp text q = [])
    ∧ (firstMatchFrom (lowerJs text) (lowerJs (trimJs q)) 0 = none → searchOp text q = [])
    ∧ ((trimJs q).length > text.length → searchOp text q = [])
    ∧ (∀ (e : CacheEntry) (o : FetchExtract) (u : JStr),
        u.isEmpty = false → q.isEmpty = false → trimJs q = [] →
        (pdfSearchHandler (fun k => if k = u then some e else none) e.fetchedAt o
          (some u) (some q)).1 = PdfResp.ok []) := by
  refine ⟨?_, ?_, ?_, ?_⟩
  · intro h; simp [searchOp, h]
  · intro h
    by_cases ht : trimJs q = []
    · simp [searchOp, ht]
    · simp [searchOp, ht, searchMatches, searchLoop, h]
  · intro h
    by_cases ht : trimJs q = []
    · simp [searchOp, ht]
    · have hlen : (lowerJs text).length < (lowerJs (trimJs q)).length := by
        simpa [lowerJs] using h
      have hnone := firstMatchFrom_none_of_long _ _ 0 hlen
      simp [searchOp, ht, searchMatches, searchLoop, hnone]
  · intro e o u hu hqe htr
    have hcache : (fun k => if k = u then some e else none) u = some e := by simp
    have hpcm : ¬ ((PDF_CACHE_MS : Int) < 0) := by decide
    simp [pdfSearchHandler, hu, hqe, getTextStep, hcache, hpcm, searchOp, htr]

/-- C4 witness: whitespace-only query, absent query, over-long query,
and the handler success on a whitespace query over a fresh entry. -/
theorem c4_degenerate_queries_empty_witness :
    searchOp (js ("abc")) (js ("  ")) = [] ∧
    searchOp (js ("abc")) (js ("zzz")) = [] ∧
    searchOp (js ("abc")) (js ("abcdef")) = [] ∧
    (pdfSearchHandler (fun k => if k = js ("u") then some ⟨0, js ("doc")⟩ else none) 0
      FetchExtract.fetchThrow (some (js ("u"))) (some (js (" ")))).1 = PdfResp.ok [] :=
  ⟨(c4_degenerate_queries_empty (js ("abc")) (js ("  "))).1 (by decide),
    (c4_degenerate_queries_empty (js ("abc")) (js ("zzz"))).2.1 (by decide),
    (c4_degenerate_queries_empty (js ("abc")) (js ("abcdef"))).2.2.1 (by decide),
    (c4_degenerate_queries_empty (js ("abc")) (js (" "))).2.2.2 ⟨0, js ("doc")⟩
      FetchExtract.fetchThrow (js ("u")) (by decide) (by decide) (by decide)⟩
